import Mathlib

/-!
# Verification of the `FileTransformCache` core (src/lib/map/utils.d.ts)

Shallow embedding of the incremental file-transform cache: the per-record
hash phase (`doHash`), the transform phase (`doTransform`), resolve-map
construction (`getResolveMap`), the request coordinator tail of `get`
(`getCached`), the first-request format dispatch, the mtime probe, the
worker pool with its FIFO wait queue, and the constructor's cache-clear
timer.

External collaborators (the jspm resolver, the md5 digest, node `path`
helpers, the builtin-substitution table, and the out-of-process transform
workers) are modelled as oracle functions bundled in `Env`, exactly as the
source treats them as opaque peers.  Promise-valued fields of a record are
modelled as pending flags plus oracles giving the value the awaited promise
settles to; each `do*` function models one settled run of its promise body,
and its output record reflects the state after the body (and, for
`doHash`, its deferred `hashPromise` cleanup) has run.
-/

/-- A JavaScript `Error` as the source uses it: a message plus an optional
`code` string property (`ENOTFOUND`, `ENOTRANSFORM`, `ETRANSFORM`, ...). -/
structure JsError where
  message : String
  code : Option String
deriving DecidableEq, Repr

/-- The message kinds `FileTransformCache` sends to a transform worker:
the `source` priming message, `analyze-cjs`/`analyze-esm`, and
`transform-dew`/`transform-esm`. -/
inductive MsgType where
  | sourceMsg : MsgType
  | analyzeMsg : Bool → MsgType
  | transformMsg : Bool → MsgType
deriving DecidableEq, Repr

/-- Whether a worker message is one of the `transform-*` messages. -/
def MsgType.isTransform : MsgType → Bool
  | .transformMsg _ => true
  | _ => false

/-- The `FileTransformRecord` interface.  The two promise fields
(`hashPromise`, `transformPromise`) are modelled as pending flags; the
`string | void` fields are `Option String` (with `originalSource` kept as a
plain string, since every record handed to the phases has it set). -/
structure FTRecord where
  path : String
  hashPending : Bool
  transformPending : Bool
  mtime : Option Int
  isGlobalCache : Bool
  checkTime : Int
  originalSource : String
  originalSourceHash : Option String
  deps : Option (List String)
  dew : Bool
  fullHash : Option String
  source : Option String
  sourceMap : Option String
  watching : Bool
deriving DecidableEq, Repr

/-- The `ResolveMap` object, modelled as an ordered association list
(JavaScript object with string keys, insertion ordered); a `none` value is
the `null` sentinel stored for dependencies resolving to the empty
module. -/
abbrev RMap := List (String × Option String)

/-- JavaScript `String.prototype.endsWith`, modelled over character
lists. -/
def strEndsWith (s t : String) : Bool :=
  t.data.isSuffixOf s.data

/-- JavaScript `String.prototype.startsWith`, modelled over character
lists. -/
def strStartsWith (s t : String) : Bool :=
  t.data.isPrefixOf s.data

/-- Drop the final character (`substr(0, length - 1)`). -/
def strDropLast (s : String) : String :=
  String.mk s.data.dropLast

/-- `str.replace(winSepRegEx, '/')`: every backslash becomes a forward
slash. -/
def winSepReplace (s : String) : String :=
  String.mk (s.data.map (fun c => if c = '\\' then '/' else c))

/-- `dep[dep.length - 1] === '/' ? dep.substr(0, dep.length - 1) : dep`. -/
def stripTrailingSlash (s : String) : String :=
  if strEndsWith s "/" then strDropLast s else s

/-- The external collaborators of the cache, bundled as oracles:
`md5fn` is `md5` from `utils/common`; `mdDigest` models a rolling
`crypto` md5 hash as the hex digest of the ordered list of `update`
arguments; `resolver dep parentPath cjsResolve` is `jspmResolve`, giving
`(resolved, format)` where either may be `undefined`; `resolveBuiltin` is
the builtin-substitution table; `pathRelative`/`pathDirname` are node
`path` functions; `analyzeReply`/`transformReply` give the settled reply
of the worker round trip for the given `dew` flag; `awaitTransform` and
`awaitHash` give what an in-flight `transformPromise`/`hashPromise`
settles to (the record as mutated by that phase, plus the resolve map). -/
structure Env where
  md5fn : String → String
  mdDigest : List String → String
  resolver : String → String → Bool → Except JsError (Option String × Option String)
  resolveBuiltin : String → String
  pathRelative : String → String → String
  pathDirname : String → String
  isWindowsFlag : Bool
  publicDir : String
  analyzeReply : Bool → Except JsError (List String)
  transformReply : Bool → Option RMap → Except JsError (String × String)
  isGlobalCacheVal : Bool
  awaitTransform : Except JsError FTRecord
  awaitHash : Except JsError (FTRecord × Option RMap)

/-- One dependency resolution inside `getResolveMap`: strip a trailing
slash, call the resolver, and apply the builtin substitution (where the
`@empty` sentinel collapses `resolved` to `undefined`). -/
def resolveDep (env : Env) (recPath : String) (dew : Bool) (dep : String) :
    Except JsError (Option String × Option String) := do
  let (resolved, format) ← env.resolver (stripTrailingSlash dep) recPath dew
  if format = some "builtin" then
    match resolved with
    | some r =>
      let r2 := env.resolveBuiltin r
      if r2 = "@empty" then pure (none, format) else pure (some r2, format)
    | none => pure (none, format)
  else
    pure (resolved, format)

/-- `relResolved` before the variant suffix: `path.relative(base, resolved)`,
backslashes normalized on Windows, `./`-prefixed unless it starts with
`../`. -/
def relResolvedOf (env : Env) (base : String) (resolved : String) : String :=
  let r := env.pathRelative base resolved
  let r := if env.isWindowsFlag then winSepReplace r else r
  if strStartsWith r "../" then r else "./" ++ r

/-- The variant suffix appended to `relResolved`: `?dew` for legacy
records, `?cjs` for non-legacy deps of `cjs` or `json` format, nothing
otherwise. -/
def depVariantTag (dew : Bool) (format : Option String) : String :=
  if dew then "?dew"
  else if format = some "cjs" ∨ format = some "json" then "?cjs"
  else ""

/-- The error thrown when a dependency resolves outside the public
directory (lines 459-463 of the source). -/
def outsidePublicDirError (env : Env) (recPath relRes : String) : JsError :=
  { message := "Path " ++ winSepReplace (env.pathRelative env.publicDir recPath) ++
      " has a dependency " ++ relRes ++ " outside of the public directory.",
    code := some "ETRANSFORM" }

/-- The `for (let dep of record.deps)` loop of `getResolveMap`, carrying
the map entries emitted so far and the ordered list of rolling-hash
`update` arguments. -/
def getResolveMapLoop (env : Env) (recPath base : String) (dew : Bool) :
    List String → RMap → List String → Except JsError (RMap × List String)
  | [], map, upds => .ok (map, upds)
  | dep :: rest, map, upds =>
    match resolveDep env recPath dew dep with
    | .error e => .error e
    | .ok (none, _) =>
        getResolveMapLoop env recPath base dew rest
          (map ++ [(dep, none)]) (upds ++ [dep, "@empty"])
    | .ok (some r, format) =>
        let relRes := relResolvedOf env base r
        if strStartsWith r env.publicDir then
          let relRes2 := relRes ++ depVariantTag dew format
          getResolveMapLoop env recPath base dew rest
            (if dep = relRes2 then map else map ++ [(dep, some relRes2)])
            (upds ++ [dep, r])
        else
          .error (outsidePublicDirError env recPath relRes)

/-- `FileTransformCache.getResolveMap`: build the resolve map and its
rolling md5 hash over `record.deps` (a `TypeError` when `deps` is still
`undefined`, as iterating `undefined` would throw). -/
def getResolveMap (env : Env) (rec : FTRecord) : Except JsError (RMap × String) :=
  match rec.deps with
  | none => .error { message := "record.deps is not iterable", code := none }
  | some deps =>
    match getResolveMapLoop env rec.path (env.pathDirname rec.path) rec.dew deps [] [] with
    | .error e => .error e
    | .ok (map, upds) => .ok (map, env.mdDigest upds)

/-- Result of one settled run of the `doHash` promise body.  `record` is
the record after the run and its deferred `hashPromise` cleanup;
`workerAcquired` says whether this run bound a worker (which it returns to
its caller un-freed); `msgs` are the messages this run sent. -/
structure HashOut where
  error : Option JsError
  record : FTRecord
  resolveMap : Option RMap
  workerAcquired : Bool
  msgs : List MsgType
deriving Repr

/-- `FileTransformCache.doHash`, one settled run: md5 the source; JSON
paths take the source hash alone as `fullHash`; otherwise re-analyze deps
through a worker when the source hash changed, build the resolve map, and
set `fullHash = sourceHash ++ resolveMapHash`. -/
def doHash (env : Env) (rec : FTRecord) : HashOut :=
  let sourceHash := env.md5fn rec.originalSource
  if strEndsWith rec.path ".json" then
    { error := none,
      record := { rec with hashPending := false, fullHash := some sourceHash },
      resolveMap := none, workerAcquired := false, msgs := [] }
  else if rec.originalSourceHash = some sourceHash then
    match getResolveMap env rec with
    | .error e =>
        { error := some e, record := { rec with hashPending := false },
          resolveMap := none, workerAcquired := false, msgs := [] }
    | .ok (map, rmHash) =>
        { error := none,
          record := { rec with
                        hashPending := false,
                        fullHash := some (sourceHash ++ rmHash) },
          resolveMap := some map, workerAcquired := false, msgs := [] }
  else
    match env.analyzeReply rec.dew with
    | .error e =>
        { error := some e,
          record := { rec with
                        originalSourceHash := some sourceHash,
                        hashPending := false },
          resolveMap := none, workerAcquired := true,
          msgs := [.sourceMsg, .analyzeMsg rec.dew] }
    | .ok deps =>
        let rec1 := { rec with
                        originalSourceHash := some sourceHash,
                        deps := some deps }
        match getResolveMap env rec1 with
        | .error e =>
            { error := some e, record := { rec1 with hashPending := false },
              resolveMap := none, workerAcquired := true,
              msgs := [.sourceMsg, .analyzeMsg rec.dew] }
        | .ok (map, rmHash) =>
            { error := none,
              record := { rec1 with
                            hashPending := false,
                            fullHash := some (sourceHash ++ rmHash) },
              resolveMap := some map, workerAcquired := true,
              msgs := [.sourceMsg, .analyzeMsg rec.dew] }

/-- The fixed JSON wrapper head (line 351 of the source). -/
def jsonWrapHead : String := "export var __dew__ = null; export var exports = "

/-- Result of one settled run of the `doTransform` promise body.
`workerFreed` says whether the run called `freeWorker` on the worker it
held; `workerHeldAtEnd` whether a worker is still bound to this run when
it ends; `workerAcquired` whether the run itself bound a fresh worker. -/
structure TransformOut where
  error : Option JsError
  record : FTRecord
  msgs : List MsgType
  workerFreed : Bool
  workerHeldAtEnd : Bool
  workerAcquired : Bool
deriving Repr

/-- `FileTransformCache.doTransform`, one settled run (entered with
`transformPromise` just installed): JSON records get the fixed wrapper and
keep `transformPromise` in place; non-legacy records with empty deps copy
the source through and free any passed worker; all other records send a
`transform-*` round trip and, succeed or fail, free the worker and clear
`transformPromise`.  Worker acquisition itself is modelled as always
succeeding. -/
def doTransform (env : Env) (rec : FTRecord) (resolveMap : Option RMap)
    (worker : Bool) : TransformOut :=
  let rec0 := { rec with transformPending := true }
  if strEndsWith rec0.path ".json" then
    { error := none,
      record := { rec0 with
                    source := some (jsonWrapHead ++ rec0.originalSource),
                    isGlobalCache := env.isGlobalCacheVal },
      msgs := [], workerFreed := false, workerHeldAtEnd := worker,
      workerAcquired := false }
  else if rec0.dew = false ∧ rec0.deps = some [] then
    { error := none,
      record := { rec0 with
                    source := some rec0.originalSource,
                    isGlobalCache := env.isGlobalCacheVal },
      msgs := [], workerFreed := worker, workerHeldAtEnd := false,
      workerAcquired := false }
  else if rec0.dew = false ∧ rec0.deps = none then
    -- `record.deps.length` on undefined throws before anything is sent
    { error := some { message := "record.deps is undefined", code := none },
      record := rec0, msgs := [], workerFreed := false,
      workerHeldAtEnd := worker, workerAcquired := false }
  else
    let primeMsgs : List MsgType := if worker then [] else [.sourceMsg]
    match env.transformReply rec0.dew resolveMap with
    | .ok (src, smap) =>
        { error := none,
          record := { rec0 with
                        source := some src, sourceMap := some smap,
                        isGlobalCache := env.isGlobalCacheVal,
                        transformPending := false },
          msgs := primeMsgs ++ [.transformMsg rec0.dew],
          workerFreed := true, workerHeldAtEnd := false,
          workerAcquired := !worker }
    | .error e =>
        { error := some e,
          record := { rec0 with transformPending := false },
          msgs := primeMsgs ++ [.transformMsg rec0.dew],
          workerFreed := true, workerHeldAtEnd := false,
          workerAcquired := !worker }

/-- The guard `hash && record.fullHash === hash` — the known hash is a
truthy (non-empty) string equal to the record's `fullHash`. -/
def hashMatches (knownHash fullHash : Option String) : Prop :=
  knownHash ≠ none ∧ knownHash ≠ some "" ∧ fullHash = knownHash

instance (kh fh : Option String) : Decidable (hashMatches kh fh) := by
  unfold hashMatches; infer_instance

/-- The "not modified" reply `{source: undefined, sourceMap: undefined,
hash, isGlobalCache}`. -/
structure GetResult where
  source : Option String
  sourceMap : Option String
  hash : Option String
  isGlobalCache : Bool
deriving DecidableEq, Repr

/-- The final `{source, sourceMap, hash: fullHash, isGlobalCache}` reply. -/
def finalResult (rec : FTRecord) : GetResult :=
  { source := rec.source, sourceMap := rec.sourceMap,
    hash := rec.fullHash, isGlobalCache := rec.isGlobalCache }

def notModified (knownHash : Option String) (rec : FTRecord) : GetResult :=
  { source := none, sourceMap := none, hash := knownHash,
    isGlobalCache := rec.isGlobalCache }

/-- What one `get` call produces past record creation: its result, the
record as this call leaves it, the worker messages this call sent, and how
many workers this call acquired and freed. -/
structure GetOut where
  result : Except JsError GetResult
  record : FTRecord
  msgs : List MsgType
  workersAcquired : Nat
  workersFreed : Nat
deriving Repr

/-- Lines 231-283 of `FileTransformCache.get`: the state machine a call
runs on an existing record, dispatching on `hashPromise` /
`transformPromise`.  The freshness store-swap of lines 242-259 replaces
the store entry for future calls but neither sends messages nor changes
what this call returns, so it is not part of this call's outputs. -/
def getCached (env : Env) (rec : FTRecord) (knownHash : Option String) : GetOut :=
  if rec.hashPending then
    -- an in-flight hash phase exists; await it (its worker is not ours)
    match env.awaitHash with
    | .error e =>
        { result := .error e, record := rec, msgs := [],
          workersAcquired := 0, workersFreed := 0 }
    | .ok (rec2, rmap) =>
      if hashMatches knownHash rec2.fullHash then
        { result := .ok (notModified knownHash rec2), record := rec2,
          msgs := [], workersAcquired := 0, workersFreed := 0 }
      else if rec2.transformPending then
        match env.awaitTransform with
        | .error e =>
            { result := .error e, record := rec2, msgs := [],
              workersAcquired := 0, workersFreed := 0 }
        | .ok rec3 =>
            { result := .ok (finalResult rec3), record := rec3, msgs := [],
              workersAcquired := 0, workersFreed := 0 }
      else
        let t := doTransform env rec2 rmap false
        { result := match t.error with
            | some e => .error e
            | none => .ok (finalResult t.record),
          record := t.record, msgs := t.msgs,
          workersAcquired := if t.workerAcquired then 1 else 0,
          workersFreed := if t.workerFreed then 1 else 0 }
  else if rec.transformPending then
    -- an in-flight transform
    if hashMatches knownHash rec.fullHash then
      { result := .ok (notModified knownHash rec), record := rec, msgs := [],
        workersAcquired := 0, workersFreed := 0 }
    else
      match env.awaitTransform with
      | .error e =>
          { result := .error e, record := rec, msgs := [],
            workersAcquired := 0, workersFreed := 0 }
      | .ok rec2 =>
          { result := .ok (finalResult rec2), record := rec2, msgs := [],
            workersAcquired := 0, workersFreed := 0 }
  else
    -- done and waiting: drive a fresh hash phase, then possibly transform
    let hOut := doHash env rec
    let acq : Nat := if hOut.workerAcquired then 1 else 0
    match hOut.error with
    | some e =>
        { result := .error e, record := hOut.record, msgs := hOut.msgs,
          workersAcquired := acq, workersFreed := 0 }
    | none =>
      if hashMatches knownHash hOut.record.fullHash then
        { result := .ok (notModified knownHash hOut.record),
          record := hOut.record, msgs := hOut.msgs,
          workersAcquired := acq, workersFreed := acq }
      else
        let t := doTransform env hOut.record hOut.resolveMap hOut.workerAcquired
        { result := match t.error with
            | some e => .error e
            | none => .ok (finalResult t.record),
          record := t.record, msgs := hOut.msgs ++ t.msgs,
          workersAcquired := acq + (if t.workerAcquired then 1 else 0),
          workersFreed := if t.workerFreed then 1 else 0 }

/-- The record's `fullHash` once the hash phase serving this `get` call
has settled: the already-settled value when a transform is in flight, the
awaited in-flight hash phase's value, or the value a freshly driven
`doHash` produces; `none` when that phase fails. -/
def settledHash (env : Env) (rec : FTRecord) : Option String :=
  if rec.hashPending then
    match env.awaitHash with
    | .error _ => none
    | .ok (rec2, _) => rec2.fullHash
  else if rec.transformPending then
    rec.fullHash
  else
    match (doHash env rec).error with
    | some _ => none
    | none => (doHash env rec).record.fullHash

/-- The outcome of the format dispatch on a first-time `get`: either the
call proceeds to create a record, or the stored handle resolves to
`null`/absent (caller re-requests the sibling variant). -/
inductive FormatOutcome where
  | proceed : FormatOutcome
  | absentResult : FormatOutcome
deriving DecidableEq, Repr

/-- How a possibly-`undefined` format renders inside a template literal. -/
def jsFormatShow : Option String → String
  | none => "undefined"
  | some s => s

/-- `format || 'unknown'`: `undefined` and the empty string are falsy. -/
def formatOrUnknown : Option String → String
  | none => "unknown"
  | some s => if s = "" then "unknown" else s

/-- Lines 180-197 of `FileTransformCache.get`: dispatch on the resolver's
format for a first-time request.  The legacy (`?dew`) variant accepts only
`cjs`/`json` and otherwise throws `ENOTRANSFORM`; the non-legacy variant
proceeds for `esm`, resolves the handle to absent for `json`/`cjs`, and
otherwise throws a plain `Error` with no `code` property. -/
def formatDispatch (dew : Bool) (format : Option String) :
    Except JsError FormatOutcome :=
  if dew then
    if format = some "cjs" ∨ format = some "json" then .ok .proceed
    else .error { message := "No dew transform for " ++ jsFormatShow format ++
                    " format.",
                  code := some "ENOTRANSFORM" }
  else
    if format = some "esm" then .ok .proceed
    else if format = some "json" then .ok .absentResult
    else if format = some "cjs" then .ok .absentResult
    else .error { message := "Unable to transform module format " ++
                    formatOrUnknown format ++ ".",
                  code := none }

/-- The settled outcome of the `fs.stat` call inside `getMtime`. -/
inductive StatResult where
  | statOk : Int → StatResult
  | statErr : String → StatResult
deriving DecidableEq, Repr

/-- The inner promise of `FileTransformCache.getMtime` (lines 480-489):
resolves `-1` on `ENOENT`/`EACCES`, the real `mtimeMs` on success, and
rejects on any other stat error. -/
def getMtimeInner (st : StatResult) : Except JsError Int :=
  match st with
  | .statOk m => .ok m
  | .statErr c =>
      if c = "ENOENT" ∨ c = "EACCES" then .ok (-1)
      else .error { message := "stat failed", code := some c }

/-- `FileTransformCache.getMtime` as written: the inner promise is awaited
but never returned, so the function resolves `undefined` (`none`) whenever
the inner promise resolves, and only propagates its rejections. -/
def getMtime (st : StatResult) : Except JsError (Option Int) :=
  match getMtimeInner st with
  | .ok _ => .ok none
  | .error e => .error e

/-- A `TransformWorker`'s pool-visible state: the record it is bound to
(by index) and whether a reply slot (`msgResolve`/`msgReject`) is set. -/
structure PoolWorker where
  recId : Option Nat
  hasReply : Bool
deriving DecidableEq, Repr

/-- The worker pool: the worker array and the FIFO `transformQueue` of
waiting records (by index). -/
structure Pool where
  workers : List PoolWorker
  queue : List Nat
deriving DecidableEq, Repr

/-- Index of the first idle worker (`_worker.record === undefined`),
scanning the array in order. -/
def firstIdleIdx : List PoolWorker → Option Nat
  | [] => none
  | w :: ws =>
      if w.recId = none then some 0 else (firstIdleIdx ws).map (· + 1)

/-- `FileTransformCache.assignWorker`, the pool-state part: bind the first
idle worker to the record, or append the waiter to `transformQueue`.
Returns the bound worker's index, `none` when the caller must wait. -/
def assignWorker1 (p : Pool) (r : Nat) : Pool × Option Nat :=
  match firstIdleIdx p.workers with
  | some i =>
      ({ p with workers := p.workers.set i { recId := some r, hasReply := true } },
       some i)
  | none => ({ p with queue := p.queue ++ [r] }, none)

/-- `FileTransformCache.freeWorker`: clear the worker's record and reply
slots; when `transformQueue` is non-empty, shift the oldest waiter and
re-bind the worker to it.  Returns the served waiter, if any. -/
def freeWorker1 (p : Pool) (i : Nat) : Pool × Option Nat :=
  match p.queue with
  | [] =>
      ({ p with workers := p.workers.set i { recId := none, hasReply := false } },
       none)
  | r :: rest =>
      ({ workers := p.workers.set i { recId := some r, hasReply := false },
         queue := rest },
       some r)

/-- Apply `freeWorker` for each index in `frees` in order, collecting the
waiters served. -/
def serveAll : Pool → List Nat → Pool × List Nat
  | p, [] => (p, [])
  | p, i :: is =>
    match freeWorker1 p i with
    | (p2, served) =>
      match serveAll p2 is with
      | (p3, rest) => (p3, served.toList ++ rest)

/-- The timer-related state of a `FileTransformCache` instance:
`hasCacheInterval` models whether `this.cacheInterval` was installed, and
`resolveCacheCleared` counts wholesale resolver-cache wipes. -/
structure CacheState where
  nextExpiry : Int
  hasCacheInterval : Bool
  cacheClearInterval : Int
  resolveCacheCleared : Nat
deriving DecidableEq, Repr

/-- The constructor's timer wiring (lines 90, 107-109): `nextExpiry`
starts at `Date.now() + cacheClearInterval`, and the periodic clear timer
is installed only when `cacheClearInterval > 0`. -/
def constructState (now cacheClearInterval : Int) : CacheState :=
  { nextExpiry := now + cacheClearInterval,
    hasCacheInterval := decide (cacheClearInterval > 0),
    cacheClearInterval := cacheClearInterval,
    resolveCacheCleared := 0 }

/-- `FileTransformCache.clearResolveCache`: wipe the resolver cache and
advance `nextExpiry`. -/
def clearResolveCache (now : Int) (s : CacheState) : CacheState :=
  { s with
      resolveCacheCleared := s.resolveCacheCleared + 1,
      nextExpiry := now + s.cacheClearInterval }

/-- A tick of the periodic clear timer: only possible when the timer was
installed; it runs `clearResolveCache` at some time `now`. -/
inductive TimerTick : CacheState → CacheState → Prop where
  | tick (now : Int) (s : CacheState) (h : s.hasCacheInterval = true) :
      TimerTick s (clearResolveCache now s)

/-- (Spec side, for the resolve-map refinement claim.)  The entry the
resolve-map step emits for one dependency, following the spec's words: the
`null` sentinel when resolution yields the empty module, the rewritten
specifier when it differs from the original, and nothing when they are
equal. -/
def specEntryOf (env : Env) (recPath base : String) (dew : Bool)
    (dep : String) : Option (String × Option String) :=
  match resolveDep env recPath dew dep with
  | .error _ => none
  | .ok (none, _) => some (dep, none)
  | .ok (some r, format) =>
      let rw := relResolvedOf env base r ++ depVariantTag dew format
      if dep = rw then none else some (dep, some rw)

/-- (Spec side.)  The rolling-hash contribution of one dependency,
following the spec's words: the pair `(dep, resolved)` with the absolute
resolved path, or `(dep, "@empty")` for empty-module dependencies. -/
def specHashUpdatesOf (env : Env) (recPath : String) (dew : Bool)
    (dep : String) : List String :=
  match resolveDep env recPath dew dep with
  | .error _ => []
  | .ok (none, _) => [dep, "@empty"]
  | .ok (some r, _) => [dep, r]

/-- A dependency that resolves successfully and lands inside the public
directory (when it does not collapse to the empty module). -/
def DepOk (env : Env) (recPath : String) (dew : Bool) (dep : String) : Prop :=
  ∃ ro f, resolveDep env recPath dew dep = .ok (ro, f) ∧
    ∀ r, ro = some r → strStartsWith r env.publicDir = true

/-- A concrete environment for evaluating the embedding on small inputs:
`#`-prefix stands in for md5, list concatenation for the rolling digest,
and a three-entry resolver over public dir `/pub/`. -/
def mkEnv : Env :=
  { md5fn := fun s => "#" ++ s,
    mdDigest := fun l => String.join l,
    resolver := fun dep _ _ =>
      if dep = "b" then .ok (some "/pub/b.js", some "esm")
      else if dep = "c" then .ok (some "/other/c.js", some "esm")
      else if dep = "e" then .ok (some "fs", some "builtin")
      else .error { message := "module not found", code := some "MODULE_NOT_FOUND" },
    resolveBuiltin := fun _ => "@empty",
    pathRelative := fun _ r => r,
    pathDirname := fun _ => "/pub",
    isWindowsFlag := false,
    publicDir := "/pub/",
    analyzeReply := fun _ => .ok ["b"],
    transformReply := fun _ _ => .ok ("out", "map"),
    isGlobalCacheVal := false,
    awaitTransform := .error { message := "no transform in flight", code := none },
    awaitHash := .error { message := "no hash in flight", code := none } }

/-- A fresh record for `/pub/a.js`, module variant, as `get` creates it
(after the source read). -/
def mkRecord : FTRecord :=
  { path := "/pub/a.js",
    hashPending := false,
    transformPending := false,
    mtime := none,
    isGlobalCache := false,
    checkTime := 0,
    originalSource := "src",
    originalSourceHash := none,
    deps := none,
    dew := false,
    fullHash := none,
    source := none,
    sourceMap := none,
    watching := false }

/-- The environment used to show a failed record is recoverable: the new
source hashes to something different from the stored hash, analysis finds
no dependencies, and the worker replies succeed. -/
def recoveryEnv (rec : FTRecord) : Env :=
  { md5fn := fun _ =>
      match rec.originalSourceHash with
      | some s => s ++ "x"
      | none => "x",
    mdDigest := fun _ => "",
    resolver := fun _ _ _ => .ok (none, none),
    resolveBuiltin := fun r => r,
    pathRelative := fun _ r => r,
    pathDirname := fun _ => "",
    isWindowsFlag := false,
    publicDir := "",
    analyzeReply := fun _ => .ok [],
    transformReply := fun _ _ => .ok ("", ""),
    isGlobalCacheVal := false,
    awaitTransform := .error { message := "unused", code := none },
    awaitHash := .error { message := "unused", code := none } }

/-- Whether a `get` outcome is a success. -/
def isOkB : Except JsError GetResult → Bool
  | .ok _ => true
  | .error _ => false

/-- A pool with one busy worker and two queued waiters, for evaluating the
pool operations. -/
def mkPool : Pool :=
  { workers := [{ recId := some 5, hasReply := true }], queue := [7, 8] }

/-- A record with an in-flight transform whose hash phase has settled, for
evaluating the known-hash short circuit. -/
def c1Rec : FTRecord :=
  { mkRecord with transformPending := true, fullHash := some "h1" }

/-- A JSON-variant record. -/
def mkJsonRecord : FTRecord :=
  { mkRecord with path := "/pub/d.json" }

/-- A legacy (`?dew`) record. -/
def c9Rec : FTRecord :=
  { mkRecord with dew := true }

/-- A record whose analysis found one plain and one builtin dependency. -/
def c3Rec : FTRecord :=
  { mkRecord with deps := some ["b", "e"] }

/-- A record with one dependency that resolves outside the public
directory. -/
def c4Rec : FTRecord :=
  { mkRecord with deps := some ["c"] }

/-- An environment whose transform worker replies with an error. -/
def c9Env : Env :=
  { mkEnv with
      transformReply := fun _ _ =>
        .error { message := "worker error", code := some "ETRANSFORM" } }

/-- Helper: appending a character to a string changes it. -/
theorem string_append_x_ne (s : String) : s ++ "x" ≠ s := by
  intro h
  have h2 : s.length + ("x" : String).length = s.length := by
    rw [← String.length_append, h]
  have h3 : ("x" : String).length = 1 := rfl
  omega

/-- Helper: serving the wait queue by repeated `freeWorker` calls hands out
exactly a prefix of the queue, in order. -/
theorem serveAll_take (frees : List Nat) (p : Pool) :
    (serveAll p frees).2 = p.queue.take frees.length := by
  induction frees generalizing p with
  | nil => simp [serveAll]
  | cons i is ih =>
      cases hq : p.queue with
      | nil => simp [serveAll, freeWorker1, hq, ih]
      | cons r rest => simp [serveAll, freeWorker1, hq, ih]

/-- C6: the source's mtime probe awaits its inner stat promise but never
returns it.  The inner promise resolves `-1` on `ENOENT`/`EACCES`, the real
`mtimeMs` on success, and rejects otherwise — exactly what the claim
describes — but `getMtime` itself resolves `undefined` in every
non-rejecting case, so a successful stat with `mtimeMs = 5` yields
`undefined`, not `5`. -/
theorem c6_mtime_probe_resolves_undefined :
    getMtime (StatResult.statOk 5) = Except.ok none ∧
    getMtimeInner (StatResult.statOk 5) = Except.ok 5 ∧
    getMtime (StatResult.statErr "ENOENT") = Except.ok none ∧
    getMtime (StatResult.statErr "EACCES") = Except.ok none ∧
    getMtime (StatResult.statErr "EPERM") =
      Except.error { message := "stat failed", code := some "EPERM" } :=
  ⟨rfl, rfl, rfl, rfl, rfl⟩

/-- C10: with a non-positive `cacheClearInterval` the constructor installs
no clear timer, so no timer tick is ever possible: every state reachable
by timer ticks keeps `nextExpiry` at construction time plus the interval
and never wipes the resolver cache. -/
theorem c10_no_timer_when_nonpositive (now i : Int) (hi : i ≤ 0) :
    (constructState now i).hasCacheInterval = false ∧
    ∀ s, Relation.ReflTransGen TimerTick (constructState now i) s →
      s.nextExpiry = now + i ∧ s.resolveCacheCleared = 0 := by
  have hfalse : (constructState now i).hasCacheInterval = false := by
    simp only [constructState, decide_eq_false_iff_not]
    omega
  refine ⟨hfalse, ?_⟩
  have hfix : ∀ s, Relation.ReflTransGen TimerTick (constructState now i) s →
      s = constructState now i := by
    intro s hs
    induction hs with
    | refl => rfl
    | tail _ hbc ih =>
        subst ih
        cases hbc with
        | tick now2 s2 h2 => rw [hfalse] at h2; exact absurd h2 (by simp)
  intro s hs
  rw [hfix s hs]
  exact ⟨rfl, rfl⟩

/-- C10 witness at interval `0`. -/
theorem c10_no_timer_when_nonpositive_witness :
    (0 : Int) ≤ 0 ∧
    ((constructState 0 0).hasCacheInterval = false ∧
     ∀ s, Relation.ReflTransGen TimerTick (constructState 0 0) s →
       s.nextExpiry = 0 + 0 ∧ s.resolveCacheCleared = 0) :=
  ⟨by decide, c10_no_timer_when_nonpositive 0 0 (by decide)⟩

/-- C8: the worker wait queue is strict FIFO.  When no worker is idle,
`assignWorker` appends the waiter at the tail of `transformQueue`; each
`freeWorker` clears the worker's record and reply and, when waiters exist,
re-binds the worker to the oldest one; and serving the queue by repeated
`freeWorker` calls hands out exactly the waiters in enqueue order. -/
theorem c8_wait_queue_fifo :
    (∀ p r, firstIdleIdx p.workers = none →
      (assignWorker1 p r).1.queue = p.queue ++ [r]) ∧
    (∀ p frees, (serveAll p frees).2 = p.queue.take frees.length) ∧
    (∀ p i r rest, p.queue = r :: rest →
      (freeWorker1 p i).1.workers =
          p.workers.set i { recId := some r, hasReply := false } ∧
      (freeWorker1 p i).2 = some r ∧ (freeWorker1 p i).1.queue = rest) ∧
    (∀ p i, p.queue = [] →
      (freeWorker1 p i).1.workers =
          p.workers.set i { recId := none, hasReply := false }) := by
  refine ⟨?_, ?_, ?_, ?_⟩
  · intro p r hidle
    simp [assignWorker1, hidle]
  · intro p frees
    exact serveAll_take frees p
  · intro p i r rest hq
    refine ⟨?_, ?_, ?_⟩ <;> simp [freeWorker1, hq]
  · intro p i hq
    simp [freeWorker1, hq]

/-- C8 witness: a saturated one-worker pool with waiters `[7, 8]`. -/
theorem c8_wait_queue_fifo_witness :
    (firstIdleIdx mkPool.workers = none ∧
      (assignWorker1 mkPool 9).1.queue = mkPool.queue ++ [9]) ∧
    (serveAll mkPool [0, 0]).2 = mkPool.queue.take [0, 0].length ∧
    (mkPool.queue = 7 :: [8] ∧ (freeWorker1 mkPool 0).2 = some 7) :=
  ⟨⟨by rfl, c8_wait_queue_fifo.1 mkPool 9 (by rfl)⟩,
   c8_wait_queue_fifo.2.1 mkPool [0, 0],
   ⟨by rfl, (c8_wait_queue_fifo.2.2.1 mkPool 0 7 [8] (by rfl)).2.1⟩⟩

/-- C5 counterexample: for the non-legacy variant, a format the module
transform does not accept (here `wasm`) makes the first-time `get` throw a
plain `Error` whose `code` property is never set — there is no
`unsupported-format` error-code tag on it, contrary to the claim. -/
theorem c5_unknown_format_error_has_no_code :
    formatDispatch false (some "wasm") =
      Except.error { message := "Unable to transform module format wasm.",
                     code := none } := rfl

/-- C5 as amended: on a first-time non-legacy `get`, `esm` proceeds,
`json`/`cjs` resolve the handle to absent, and any other or unknown format
fails with an error that carries no error-code tag, whose message is
`Unable to transform module format <format or unknown>.`. -/
theorem c5_format_dispatch_amended (format : Option String)
    (h1 : format ≠ some "esm") (h2 : format ≠ some "json")
    (h3 : format ≠ some "cjs") :
    formatDispatch false (some "esm") = .ok .proceed ∧
    formatDispatch false (some "json") = .ok .absentResult ∧
    formatDispatch false (some "cjs") = .ok .absentResult ∧
    formatDispatch false format =
      .error { message := "Unable to transform module format " ++
                 formatOrUnknown format ++ ".",
               code := none } := by
  refine ⟨rfl, rfl, rfl, ?_⟩
  simp [formatDispatch, h1, h2, h3]

/-- C5 witness at format `text`. -/
theorem c5_format_dispatch_amended_witness :
    (some "text" ≠ some "esm" ∧ some "text" ≠ some "json" ∧
      some "text" ≠ some "cjs") ∧
    (formatDispatch false (some "esm") = .ok .proceed ∧
     formatDispatch false (some "json") = .ok .absentResult ∧
     formatDispatch false (some "cjs") = .ok .absentResult ∧
     formatDispatch false (some "text") =
       .error { message := "Unable to transform module format " ++
                  formatOrUnknown (some "text") ++ ".",
                code := none }) :=
  ⟨⟨by decide, by decide, by decide⟩,
   c5_format_dispatch_amended (some "text") (by decide) (by decide) (by decide)⟩

/-- C2: for a JSON-extension file, a completed `get` produces exactly the
fixed wrapper prepended to `originalSource`, a hash equal to
`md5(originalSource)` alone (the hash phase adds no resolve-map
component), and an absent source map. -/
theorem c2_json_wrap_and_hash (env : Env) (rec : FTRecord)
    (hjson : strEndsWith rec.path ".json" = true)
    (hhp : rec.hashPending = false) (htp : rec.transformPending = false)
    (hsm : rec.sourceMap = none) :
    (getCached env rec none).result =
      .ok { source := some (jsonWrapHead ++ rec.originalSource),
            sourceMap := none,
            hash := some (env.md5fn rec.originalSource),
            isGlobalCache := env.isGlobalCacheVal } ∧
    (getCached env rec none).msgs = [] := by
  constructor <;>
    simp [getCached, doHash, doTransform, hjson, hhp, htp, hsm, hashMatches,
      finalResult]

/-- C2 witness on `/pub/d.json`. -/
theorem c2_json_wrap_and_hash_witness :
    (strEndsWith mkJsonRecord.path ".json" = true ∧
     mkJsonRecord.hashPending = false ∧ mkJsonRecord.transformPending = false ∧
     mkJsonRecord.sourceMap = none) ∧
    ((getCached mkEnv mkJsonRecord none).result =
       .ok { source := some (jsonWrapHead ++ mkJsonRecord.originalSource),
             sourceMap := none,
             hash := some (mkEnv.md5fn mkJsonRecord.originalSource),
             isGlobalCache := mkEnv.isGlobalCacheVal } ∧
     (getCached mkEnv mkJsonRecord none).msgs = []) :=
  ⟨⟨by rfl, by rfl, by rfl, by rfl⟩,
   c2_json_wrap_and_hash mkEnv mkJsonRecord (by rfl) (by rfl) (by rfl) (by rfl)⟩

/-- C7: in the hash phase of a non-JSON record, a changed source hash
binds a worker, sends the priming and analyze messages, and updates
`record.deps` and `record.originalSourceHash`; an unchanged source hash
reuses `deps` unchanged and acquires no worker. -/
theorem c7_hash_phase_worker_use (env : Env) (rec : FTRecord)
    (hnj : strEndsWith rec.path ".json" = false) :
    (∀ ds, rec.originalSourceHash ≠ some (env.md5fn rec.originalSource) →
      env.analyzeReply rec.dew = .ok ds →
      (doHash env rec).workerAcquired = true ∧
      (doHash env rec).msgs = [MsgType.sourceMsg, MsgType.analyzeMsg rec.dew] ∧
      (doHash env rec).record.deps = some ds ∧
      (doHash env rec).record.originalSourceHash =
        some (env.md5fn rec.originalSource)) ∧
    (rec.originalSourceHash = some (env.md5fn rec.originalSource) →
      (doHash env rec).workerAcquired = false ∧
      (doHash env rec).msgs = [] ∧
      (doHash env rec).record.deps = rec.deps ∧
      (doHash env rec).record.originalSourceHash = rec.originalSourceHash) := by
  constructor
  · intro ds hne hrep
    cases hg : getResolveMap env
        { rec with
            originalSourceHash := some (env.md5fn rec.originalSource),
            deps := some ds } with
    | error e =>
        refine ⟨?_, ?_, ?_, ?_⟩ <;> simp [doHash, hnj, hne, hrep, hg]
    | ok pr =>
        obtain ⟨map, rmHash⟩ := pr
        refine ⟨?_, ?_, ?_, ?_⟩ <;> simp [doHash, hnj, hne, hrep, hg]
  · intro heq
    cases hg : getResolveMap env rec with
    | error e =>
        refine ⟨?_, ?_, ?_, ?_⟩ <;> simp [doHash, hnj, heq, hg]
    | ok pr =>
        obtain ⟨map, rmHash⟩ := pr
        refine ⟨?_, ?_, ?_, ?_⟩ <;> simp [doHash, hnj, heq, hg]

/-- C7 witness: fresh record, changed hash, analysis finds `["b"]`. -/
theorem c7_hash_phase_worker_use_witness :
    (strEndsWith mkRecord.path ".json" = false ∧
     mkRecord.originalSourceHash ≠ some (mkEnv.md5fn mkRecord.originalSource) ∧
     mkEnv.analyzeReply mkRecord.dew = .ok ["b"]) ∧
    ((doHash mkEnv mkRecord).workerAcquired = true ∧
     (doHash mkEnv mkRecord).msgs =
       [MsgType.sourceMsg, MsgType.analyzeMsg mkRecord.dew] ∧
     (doHash mkEnv mkRecord).record.deps = some ["b"] ∧
     (doHash mkEnv mkRecord).record.originalSourceHash =
       some (mkEnv.md5fn mkRecord.originalSource)) :=
  ⟨⟨by rfl, by decide, by rfl⟩,
   (c7_hash_phase_worker_use mkEnv mkRecord (by rfl)).1 ["b"] (by decide) (by rfl)⟩

/-- C9: whenever the transform phase actually sends a `transform-*`
message (non-JSON record, and not the empty-deps non-legacy case), the
bound worker is freed and `transformPending` is cleared — for every worker
reply, success or error alike, since the environment is arbitrary. -/
theorem c9_transform_always_frees_worker (env : Env) (rec : FTRecord)
    (rmap : Option RMap) (worker : Bool)
    (hnj : strEndsWith rec.path ".json" = false)
    (hsend : rec.dew = true ∨ (rec.deps ≠ none ∧ rec.deps ≠ some [])) :
    (doTransform env rec rmap worker).workerFreed = true ∧
    (doTransform env rec rmap worker).workerHeldAtEnd = false ∧
    (doTransform env rec rmap worker).record.transformPending = false ∧
    ∃ m ∈ (doTransform env rec rmap worker).msgs, m.isTransform = true := by
  have hc1 : ¬(rec.dew = false ∧ rec.deps = some []) := by
    rcases hsend with h | ⟨h1, h2⟩
    · simp [h]
    · simp [h2]
  have hc2 : ¬(rec.dew = false ∧ rec.deps = none) := by
    rcases hsend with h | ⟨h1, h2⟩
    · simp [h]
    · simp [h1]
  cases hrep : env.transformReply rec.dew rmap with
  | ok pr =>
      obtain ⟨src, smap⟩ := pr
      refine ⟨?_, ?_, ?_, ?_⟩ <;>
        simp [doTransform, hnj, hc1, hc2, hrep, MsgType.isTransform]
      exact ⟨MsgType.transformMsg rec.dew, Or.inr rfl, rfl⟩
  | error e =>
      refine ⟨?_, ?_, ?_, ?_⟩ <;>
        simp [doTransform, hnj, hc1, hc2, hrep, MsgType.isTransform]
      exact ⟨MsgType.transformMsg rec.dew, Or.inr rfl, rfl⟩

/-- C9 witness: a legacy (`?dew`) record with a failing worker reply. -/
theorem c9_transform_always_frees_worker_witness :
    (strEndsWith c9Rec.path ".json" = false ∧
     (c9Rec.dew = true ∨ (c9Rec.deps ≠ none ∧ c9Rec.deps ≠ some []))) ∧
    ((doTransform c9Env c9Rec none false).workerFreed = true ∧
     (doTransform c9Env c9Rec none false).workerHeldAtEnd = false ∧
     (doTransform c9Env c9Rec none false).record.transformPending = false ∧
     ∃ m ∈ (doTransform c9Env c9Rec none false).msgs, m.isTransform = true) :=
  ⟨⟨by rfl, Or.inl (by rfl)⟩,
   c9_transform_always_frees_worker c9Env c9Rec none false (by rfl)
     (Or.inl (by rfl))⟩

/-- Helper: running the resolve-map loop over a prefix of well-resolving
dependencies appends exactly the spec-side entries and hash updates of
that prefix to the accumulators. -/
theorem getResolveMapLoop_append_char (env : Env) (recPath base : String)
    (dew : Bool) (pre l2 : List String)
    (hok : ∀ d ∈ pre, DepOk env recPath dew d) :
    ∀ map upds,
      getResolveMapLoop env recPath base dew (pre ++ l2) map upds =
        getResolveMapLoop env recPath base dew l2
          (map ++ pre.filterMap (specEntryOf env recPath base dew))
          (upds ++ pre.flatMap (specHashUpdatesOf env recPath dew)) := by
  induction pre with
  | nil => intro map upds; simp
  | cons d rest ih =>
      intro map upds
      obtain ⟨ro, f, hres, hin⟩ := hok d (by simp)
      have hok2 : ∀ x ∈ rest, DepOk env recPath dew x := fun x hx =>
        hok x (by simp [hx])
      cases ro with
      | none =>
          simp only [List.cons_append, getResolveMapLoop, hres, List.append_eq]
          rw [ih hok2]
          simp [specEntryOf, specHashUpdatesOf, hres, List.filterMap_cons,
            List.flatMap_cons, List.append_assoc]
      | some r =>
          have hr := hin r rfl
          simp only [List.cons_append, getResolveMapLoop, hres, hr, if_true,
            List.append_eq]
          rw [ih hok2]
          rw [List.filterMap_cons, List.flatMap_cons]
          simp only [specEntryOf, specHashUpdatesOf, hres]
          by_cases hd : d = relResolvedOf env base r ++ depVariantTag dew f
          · simp only [if_pos hd]
            simp [List.append_assoc]
          · simp only [if_neg hd]
            simp [List.append_assoc]

/-- C3: when every dependency resolves inside the public directory, the
resolve map holds exactly the entries whose rewritten specifier differs
from the original (with the `null` sentinel for empty-module deps), and
the resolve-map hash is the digest of the full ordered sequence of
`(dep, resolved-absolute)` / `(dep, "@empty")` update pairs. -/
theorem c3_resolve_map_characterization (env : Env) (rec : FTRecord)
    (deps : List String) (hdeps : rec.deps = some deps)
    (hok : ∀ d ∈ deps, DepOk env rec.path rec.dew d) :
    getResolveMap env rec =
      .ok (deps.filterMap
             (specEntryOf env rec.path (env.pathDirname rec.path) rec.dew),
           env.mdDigest
             (deps.flatMap (specHashUpdatesOf env rec.path rec.dew))) := by
  have h := getResolveMapLoop_append_char env rec.path
    (env.pathDirname rec.path) rec.dew deps [] hok [] []
  simp only [List.append_nil, List.nil_append, getResolveMapLoop] at h
  simp only [getResolveMap, hdeps, h]

/-- C3 witness: one rewritten dependency and one builtin collapsing to the
empty module. -/
theorem c3_resolve_map_characterization_witness :
    (c3Rec.deps = some ["b", "e"] ∧
     ∀ d ∈ ["b", "e"], DepOk mkEnv c3Rec.path c3Rec.dew d) ∧
    getResolveMap mkEnv c3Rec =
      .ok ((["b", "e"]).filterMap
             (specEntryOf mkEnv c3Rec.path (mkEnv.pathDirname c3Rec.path)
               c3Rec.dew),
           mkEnv.mdDigest
             ((["b", "e"]).flatMap
               (specHashUpdatesOf mkEnv c3Rec.path c3Rec.dew))) :=
  have hok : ∀ d ∈ ["b", "e"], DepOk mkEnv c3Rec.path c3Rec.dew d := by
    intro d hd
    simp only [List.mem_cons, List.not_mem_nil, or_false] at hd
    rcases hd with rfl | rfl
    · exact ⟨some "/pub/b.js", some "esm", by rfl,
        fun r hr => by injection hr with h2; subst h2; decide⟩
    · exact ⟨none, some "builtin", by rfl, fun r hr => nomatch hr⟩
  ⟨⟨rfl, hok⟩, c3_resolve_map_characterization mkEnv c3Rec ["b", "e"] rfl hok⟩

/-- C4: a dependency resolving outside the public directory makes
resolve-map construction fail with code `ETRANSFORM` (the
*transform-error* tag) and a message that names the offending dependency's
relative path; and the record stays recoverable — the failed hash phase
still clears `hashPending` (after its deferred cleanup), and from any such
quiescent record a later `get` with a changed source can succeed. -/
theorem c4_outside_public_dir (env : Env) (rec : FTRecord)
    (pre post : List String) (d r : String) (f : Option String)
    (hdeps : rec.deps = some (pre ++ d :: post))
    (hpre : ∀ x ∈ pre, DepOk env rec.path rec.dew x)
    (hres : resolveDep env rec.path rec.dew d = .ok (some r, f))
    (hout : strStartsWith r env.publicDir = false) :
    getResolveMap env rec =
      .error (outsidePublicDirError env rec.path
        (relResolvedOf env (env.pathDirname rec.path) r)) ∧
    (outsidePublicDirError env rec.path
        (relResolvedOf env (env.pathDirname rec.path) r)).code =
      some "ETRANSFORM" ∧
    (outsidePublicDirError env rec.path
        (relResolvedOf env (env.pathDirname rec.path) r)).message =
      "Path " ++ winSepReplace (env.pathRelative env.publicDir rec.path) ++
        " has a dependency " ++ relResolvedOf env (env.pathDirname rec.path) r ++
        " outside of the public directory." ∧
    (∀ env0 rec0, (doHash env0 rec0).record.hashPending = false) ∧
    (∀ rec1 : FTRecord, rec1.hashPending = false →
      rec1.transformPending = false →
      rec1.originalSource ++ "x" ≠ rec1.originalSource ∧
      isOkB ((getCached (recoveryEnv rec1)
          { rec1 with originalSource := rec1.originalSource ++ "x" }
          none).result) = true) := by
  refine ⟨?_, rfl, rfl, ?_, ?_⟩
  · have h := getResolveMapLoop_append_char env rec.path
      (env.pathDirname rec.path) rec.dew pre (d :: post) hpre [] []
    simp only [List.nil_append] at h
    simp only [getResolveMap, hdeps, h]
    simp only [getResolveMapLoop, hres, hout, Bool.false_eq_true, if_false]
  · intro env0 rec0
    simp only [doHash]
    split
    · rfl
    · split
      · split <;> rfl
      · split
        · rfl
        · split <;> rfl
  · intro rec1 h1 h2
    refine ⟨string_append_x_ne rec1.originalSource, ?_⟩
    have hne2 : ¬(rec1.originalSourceHash =
        some (match rec1.originalSourceHash with
              | some s => s ++ "x"
              | none => "x")) := by
      cases hosh : rec1.originalSourceHash with
      | none => simp
      | some t =>
          simp only [Option.some.injEq]
          intro hcontra
          exact string_append_x_ne t hcontra.symm
    by_cases hj : strEndsWith rec1.path ".json" = true
    · simp [getCached, doHash, doTransform, h1, h2, hj, hashMatches, isOkB]
    · have hj2 : strEndsWith rec1.path ".json" = false := by
        simpa using hj
      cases hdew : rec1.dew with
      | false =>
          simp [getCached, doHash, doTransform, getResolveMap,
            getResolveMapLoop, h1, h2, hj2, hdew, hne2, hashMatches, isOkB,
            recoveryEnv]
      | true =>
          simp [getCached, doHash, doTransform, getResolveMap,
            getResolveMapLoop, h1, h2, hj2, hdew, hne2, hashMatches, isOkB,
            recoveryEnv]

/-- C4 witness: `/pub/a.js` depends on `"c"`, which resolves to
`/other/c.js`, outside `/pub/`. -/
theorem c4_outside_public_dir_witness :
    (c4Rec.deps = some ([] ++ "c" :: []) ∧
     (∀ x ∈ ([] : List String), DepOk mkEnv c4Rec.path c4Rec.dew x) ∧
     resolveDep mkEnv c4Rec.path c4Rec.dew "c" =
       .ok (some "/other/c.js", some "esm") ∧
     strStartsWith "/other/c.js" mkEnv.publicDir = false) ∧
    (getResolveMap mkEnv c4Rec =
      .error (outsidePublicDirError mkEnv c4Rec.path
        (relResolvedOf mkEnv (mkEnv.pathDirname c4Rec.path) "/other/c.js")) ∧
     (outsidePublicDirError mkEnv c4Rec.path
        (relResolvedOf mkEnv (mkEnv.pathDirname c4Rec.path) "/other/c.js")).code =
       some "ETRANSFORM" ∧
     (outsidePublicDirError mkEnv c4Rec.path
        (relResolvedOf mkEnv (mkEnv.pathDirname c4Rec.path) "/other/c.js")).message =
       "Path " ++ winSepReplace (mkEnv.pathRelative mkEnv.publicDir c4Rec.path) ++
         " has a dependency " ++
         relResolvedOf mkEnv (mkEnv.pathDirname c4Rec.path) "/other/c.js" ++
         " outside of the public directory." ∧
     (∀ env0 rec0, (doHash env0 rec0).record.hashPending = false) ∧
     (∀ rec1 : FTRecord, rec1.hashPending = false →
       rec1.transformPending = false →
       rec1.originalSource ++ "x" ≠ rec1.originalSource ∧
       isOkB ((getCached (recoveryEnv rec1)
           { rec1 with originalSource := rec1.originalSource ++ "x" }
           none).result) = true)) :=
  ⟨⟨rfl, by intro x hx; exact absurd hx (List.not_mem_nil x), by rfl, by decide⟩,
   c4_outside_public_dir mkEnv c4Rec [] [] "c" "/other/c.js" (some "esm")
     rfl (by intro x hx; exact absurd hx (List.not_mem_nil x)) (by rfl)
     (by decide)⟩

/-- Helper: the hash phase sends only priming and analyze messages, never
a `transform-*` message. -/
theorem doHash_msgs_no_transform (env : Env) (rec : FTRecord) :
    ∀ m ∈ (doHash env rec).msgs, m.isTransform = false := by
  intro m hm
  simp only [doHash] at hm
  split at hm
  · simp at hm
  · split at hm
    · split at hm <;> simp at hm
    · split at hm
      · simp at hm
        rcases hm with rfl | rfl <;> rfl
      · split at hm <;>
          · simp at hm
            rcases hm with rfl | rfl <;> rfl

/-- C1: whenever the known hash passed to `get` equals the record's
`fullHash` once the hash phase serving that call has settled (a real md5
hex digest, hence non-empty), the call returns the not-modified reply with
absent source and source map and the echoed hash, sends no `transform-*`
message, and frees exactly the workers it acquired. -/
theorem c1_known_hash_short_circuit (env : Env) (rec : FTRecord) (h : String)
    (hne : h ≠ "") (hs : settledHash env rec = some h) :
    (∃ g, (getCached env rec (some h)).result =
        .ok { source := none, sourceMap := none, hash := some h,
              isGlobalCache := g }) ∧
    (∀ m ∈ (getCached env rec (some h)).msgs, m.isTransform = false) ∧
    (getCached env rec (some h)).workersFreed =
      (getCached env rec (some h)).workersAcquired := by
  have hmatch : ∀ fh : Option String, fh = some h → hashMatches (some h) fh :=
    fun fh hfh => ⟨Option.some_ne_none h, by simp [hne], hfh⟩
  cases hp : rec.hashPending with
  | true =>
      simp only [settledHash, hp, if_true] at hs
      cases hA : env.awaitHash with
      | error e => rw [hA] at hs; simp at hs
      | ok pr =>
          obtain ⟨rec2, rmap⟩ := pr
          rw [hA] at hs
          simp only at hs
          have hc := hmatch _ hs
          simp only [getCached, hp, hA, if_true]
          rw [if_pos hc]
          exact ⟨⟨rec2.isGlobalCache, rfl⟩, by simp, rfl⟩
  | false =>
      cases ht : rec.transformPending with
      | true =>
          simp [settledHash, hp, ht] at hs
          have hc := hmatch _ hs
          simp only [getCached, hp, ht, Bool.false_eq_true, if_false, if_true]
          rw [if_pos hc]
          exact ⟨⟨rec.isGlobalCache, rfl⟩, by simp, rfl⟩
      | false =>
          simp [settledHash, hp, ht] at hs
          cases hE : (doHash env rec).error with
          | some e => rw [hE] at hs; simp at hs
          | none =>
              rw [hE] at hs
              simp only at hs
              have hc := hmatch _ hs
              simp only [getCached, hp, ht, Bool.false_eq_true, if_false, hE]
              rw [if_pos hc]
              exact ⟨⟨(doHash env rec).record.isGlobalCache, rfl⟩,
                doHash_msgs_no_transform env rec, rfl⟩

/-- C1 witness: an in-flight transform with settled hash `h1`. -/
theorem c1_known_hash_short_circuit_witness :
    ("h1" ≠ "" ∧ settledHash mkEnv c1Rec = some "h1") ∧
    ((∃ g, (getCached mkEnv c1Rec (some "h1")).result =
        .ok { source := none, sourceMap := none, hash := some "h1",
              isGlobalCache := g }) ∧
     (∀ m ∈ (getCached mkEnv c1Rec (some "h1")).msgs, m.isTransform = false) ∧
     (getCached mkEnv c1Rec (some "h1")).workersFreed =
       (getCached mkEnv c1Rec (some "h1")).workersAcquired) :=
  ⟨⟨by decide, by rfl⟩,
   c1_known_hash_short_circuit mkEnv c1Rec "h1" (by decide) (by rfl)⟩
